import Mathlib

/-!
Verification of the google-drive-to-mpc-fill repository.

The development shallowly embeds the two Python scripts:
* `google-drive-to-mpc-fill.py` (namespace `Drive`): URL id extraction, the
  folder/file classifier `_is_folder`, the deduplicator `_remove_duplicates`,
  the recursive traversal `get_folder_contents_via_scraping`, the bracket
  lookup `_find_next_bracket`, and the order assembler `generate_mpcfill_xml`.
* `combine-mpc-fill-files.py` (namespace `Combine`): the bracket lookup
  `find_next_bracket` and the document merger `combine_xml_files`.

Python strings are modelled as Lean `String` with explicit character-list
implementations of the Python primitives (`.lower()`, `in`, `.startswith`,
`.endswith`, `.replace`, `.strip`, `.count`) so that every definition is
executable by kernel reduction.  `sys.exit(code)` is modelled as
`Except.error code`; a normal return is `Except.ok`.  Console output is not
modelled except where a claim mentions it: the pairing warnings of the order
assembler are collected in a `warnings` field.
-/

/-! ### Python string primitives, on character lists -/

/-- Python `s.lower()` (per-character lowering, as CPython does for ASCII). -/
def pyLower (s : String) : String := ⟨s.data.map Char.toLower⟩

/-- Python `pat in s` (substring containment). -/
def strContains (s pat : String) : Bool :=
  s.data.tails.any (fun t => pat.data.isPrefixOf t)

/-- Python `s.startswith(pat)`. -/
def pyStartsWith (s pat : String) : Bool := pat.data.isPrefixOf s.data

/-- Python `s.endswith(pat)`. -/
def pyEndsWith (s pat : String) : Bool := pat.data.isSuffixOf s.data

/-- Python `s.count(c)` for a single character. -/
def pyCountChar (s : String) (c : Char) : Nat := s.data.count c

/-- One left-to-right, non-overlapping replacement sweep, as Python
`str.replace` performs.  The `fuel` argument is initialised with the length
of the scanned list; every step consumes at least one character when the
pattern is non-empty (the only way the scripts use it), so the fuel is never
exhausted and only serves to make the recursion structural. -/
def replChar (pat rep : List Char) : Nat → List Char → List Char
  | _, [] => []
  | 0, l => l
  | fuel+1, c :: rest =>
    if pat.isPrefixOf (c :: rest) then
      rep ++ replChar pat rep fuel (List.drop pat.length (c :: rest))
    else c :: replChar pat rep fuel rest

/-- Python `s.replace(pat, rep)` (all occurrences, left to right). -/
def pyReplace (s pat rep : String) : String :=
  ⟨replChar pat.data rep.data s.data.length s.data⟩

/-- The characters removed by Python `str.strip()`. -/
def isPySpace (c : Char) : Bool :=
  c = ' ' ∨ c = '\t' ∨ c = '\n' ∨ c = '\r' ∨ c = '\x0b' ∨ c = '\x0c'

/-- Python `s.strip()`. -/
def pyStrip (s : String) : String :=
  ⟨((s.data.dropWhile isPySpace).reverse.dropWhile isPySpace).reverse⟩

/-- Python truthiness of a string (`bool(s)` = `s ≠ ""`). -/
def pyTruthy (s : String) : Bool := s ≠ ""

/-! ### The bracket lookup, present identically in both scripts -/

/-- The body of the `for bracket in ...: if bracket >= quantity: return bracket`
loop shared by both scripts' bracket functions. -/
def findNextBracketLoop (quantity : Nat) : List Nat → Option Nat
  | [] => none
  | b :: rest => if quantity ≤ b then some b else findNextBracketLoop quantity rest

namespace Drive

/-- `DEFAULT_BRACKET_SIZE` of `google-drive-to-mpc-fill.py`. -/
def DEFAULT_BRACKET_SIZE : List Nat :=
  [18, 36, 55, 72, 90, 108, 126, 144, 162, 180, 198, 216, 234, 396, 504, 612]

/-- `GoogleDriveLister._find_next_bracket` (`self.bracket_sizes` is always
`DEFAULT_BRACKET_SIZE`): first table entry `≥ quantity`, else the last entry
(else the quantity itself, for an empty table). -/
def find_next_bracket (quantity : Nat) : Nat :=
  match findNextBracketLoop quantity DEFAULT_BRACKET_SIZE with
  | some b => b
  | none => (DEFAULT_BRACKET_SIZE.getLast?).getD quantity

end Drive

namespace Combine

/-- `DEFAULT_BRACKET_SIZE` of `combine-mpc-fill-files.py`. -/
def DEFAULT_BRACKET_SIZE : List Nat :=
  [18, 36, 55, 72, 90, 108, 126, 144, 162, 180, 198, 216, 234, 396, 504, 612]

/-- `find_next_bracket` of `combine-mpc-fill-files.py`. -/
def find_next_bracket (quantity : Nat) : Nat :=
  match findNextBracketLoop quantity DEFAULT_BRACKET_SIZE with
  | some b => b
  | none => (DEFAULT_BRACKET_SIZE.getLast?).getD quantity

end Combine

/-- A value returned by the bracket loop is at least the quantity. -/
lemma findNextBracketLoop_le {q : Nat} :
    ∀ {l : List Nat} {b : Nat}, findNextBracketLoop q l = some b → q ≤ b := by
  intro l
  induction l with
  | nil => intro b hb; simp [findNextBracketLoop] at hb
  | cons a rest ih =>
    intro b hb
    by_cases h : q ≤ a
    · simp [findNextBracketLoop, h] at hb; omega
    · simp [findNextBracketLoop, h] at hb; exact ih hb

/-- A value returned by the bracket loop is a table entry. -/
lemma findNextBracketLoop_mem {q : Nat} :
    ∀ {l : List Nat} {b : Nat}, findNextBracketLoop q l = some b → b ∈ l := by
  intro l
  induction l with
  | nil => intro b hb; simp [findNextBracketLoop] at hb
  | cons a rest ih =>
    intro b hb
    by_cases h : q ≤ a
    · simp [findNextBracketLoop, h] at hb; simp [hb]
    · simp [findNextBracketLoop, h] at hb
      exact List.mem_cons_of_mem a (ih hb)

/-- When the quantity exceeds every table entry the loop finds nothing. -/
lemma findNextBracketLoop_none {q : Nat} :
    ∀ {l : List Nat}, (∀ b ∈ l, b < q) → findNextBracketLoop q l = none := by
  intro l
  induction l with
  | nil => intro _; rfl
  | cons a rest ih =>
    intro h
    have ha : a < q := h a (List.mem_cons_self a rest)
    have : ¬ q ≤ a := by omega
    simp [findNextBracketLoop, this]
    exact ih fun b hb => h b (List.mem_cons_of_mem a hb)

/-- The loop answer for a smaller quantity is no larger (no sortedness of the
table is needed: an earlier entry accepted for `q1` is below anything
acceptable for `q2`). -/
lemma findNextBracketLoop_mono {q1 q2 : Nat} (h : q1 ≤ q2) :
    ∀ {l : List Nat} {b2 : Nat}, findNextBracketLoop q2 l = some b2 →
      ∃ b1, findNextBracketLoop q1 l = some b1 ∧ b1 ≤ b2 := by
  intro l
  induction l with
  | nil => intro b2 hb; simp [findNextBracketLoop] at hb
  | cons a rest ih =>
    intro b2 hb
    by_cases h2 : q2 ≤ a
    · simp [findNextBracketLoop, h2] at hb
      have h1 : q1 ≤ a := le_trans h h2
      exact ⟨a, by simp [findNextBracketLoop, h1], by omega⟩
    · simp [findNextBracketLoop, h2] at hb
      have hq2b2 : q2 ≤ b2 := findNextBracketLoop_le hb
      by_cases h1 : q1 ≤ a
      · exact ⟨a, by simp [findNextBracketLoop, h1], by omega⟩
      · obtain ⟨b1, hb1, hle⟩ := ih hb
        exact ⟨b1, by simp [findNextBracketLoop, h1, hb1], hle⟩

lemma bracket_table_le_612 : ∀ b ∈ Combine.DEFAULT_BRACKET_SIZE, b ≤ 612 := by decide

/-- C4: the bracket lookup used by both the assembler
(`GoogleDriveLister._find_next_bracket`) and the merger
(`find_next_bracket`) is monotone; `bracket 0 = 18`, `bracket 612 = 612`,
and every quantity above `612` is clamped to the table's last entry `612`;
moreover the two scripts' lookups agree everywhere. -/
theorem bracket_lookup_monotone_clamped :
    (∀ q1 q2 : Nat, q1 ≤ q2 → Combine.find_next_bracket q1 ≤ Combine.find_next_bracket q2)
    ∧ Combine.find_next_bracket 0 = 18
    ∧ Combine.find_next_bracket 612 = 612
    ∧ (∀ q : Nat, 612 < q → Combine.find_next_bracket q = 612)
    ∧ (∀ q : Nat, Drive.find_next_bracket q = Combine.find_next_bracket q) := by
  refine ⟨?_, by decide, by decide, ?_, fun q => rfl⟩
  · intro q1 q2 h
    unfold Combine.find_next_bracket
    cases h2 : findNextBracketLoop q2 Combine.DEFAULT_BRACKET_SIZE with
    | some b2 =>
      obtain ⟨b1, h1, hle⟩ := findNextBracketLoop_mono h h2
      rw [h1]
      exact hle
    | none =>
      cases h1 : findNextBracketLoop q1 Combine.DEFAULT_BRACKET_SIZE with
      | some b1 =>
        have : b1 ≤ 612 := bracket_table_le_612 b1 (findNextBracketLoop_mem h1)
        simpa [Combine.DEFAULT_BRACKET_SIZE] using this
      | none => simp [Combine.DEFAULT_BRACKET_SIZE]
  · intro q h
    have hnone : findNextBracketLoop q Combine.DEFAULT_BRACKET_SIZE = none :=
      findNextBracketLoop_none fun b hb =>
        lt_of_le_of_lt (bracket_table_le_612 b hb) h
    unfold Combine.find_next_bracket
    rw [hnone]
    rfl

/-- Witness for C4 at concrete quantities. -/
theorem bracket_lookup_monotone_clamped_witness :
    Combine.find_next_bracket 20 ≤ Combine.find_next_bracket 100 ∧
    Combine.find_next_bracket 613 = 612 :=
  ⟨bracket_lookup_monotone_clamped.1 20 100 (by decide),
   bracket_lookup_monotone_clamped.2.2.2.1 613 (by decide)⟩

/-! ### The Entry data model and the classifier `_is_folder` -/

namespace Drive

/-- One extracted file-or-folder record: the dictionary shape produced by the
extraction strategies of `google-drive-to-mpc-fill.py`.  Absent dictionary
keys are represented by the Python defaults the code reads them with
(`item.get('mimeType', '')`, `item.get('class', [])`,
`item.get('data-target')` = `None`, and so on). -/
structure Entry where
  id : String := ""
  name : String := ""
  mimeType : String := ""
  size : String := ""
  isFolder : Bool := false
  path : String := ""
  ariaLabel : String := ""
  dataTarget : Option String := none
  classes : List String := []
  href : String := ""
  hasImagePreview : Bool := false
  deriving Repr, DecidableEq

/-- The ~25-extension list hard-coded in the Google-Doc special case of
`_is_folder`. -/
def KNOWN_FILE_EXTENSIONS : List String :=
  [".pdf", ".png", ".jpg", ".jpeg", ".doc", ".docx", ".txt", ".zip", ".rar",
   ".mp4", ".mp3", ".avi", ".mov", ".gif", ".bmp", ".tiff", ".svg", ".xlsx",
   ".pptx", ".csv", ".json", ".xml", ".html", ".css", ".js", ".py", ".java",
   ".cpp", ".c", ".h"]

/-- `GoogleDriveLister._is_folder`: the ordered short-circuit signal cascade. -/
def is_folder (item : Entry) : Bool :=
  let mime_type := pyLower item.mimeType
  if mime_type = "application/vnd.google-apps.folder" then true
  else if item.isFolder then true
  else if item.dataTarget = some "folder" then true
  else if item.classes.any (fun class_name => strContains (pyLower class_name) "folder") then true
  else if strContains item.href "/folders/" then true
  else
    let aria_label := pyLower item.ariaLabel
    if strContains aria_label "shared folder" then true
    else if strContains aria_label "image" ∧ strContains aria_label "more info" then false
    else if item.hasImagePreview then false
    else if mime_type = "application/vnd.google-apps.document" ∨ item.dataTarget = some "doc" then
      let name := pyLower item.name
      if KNOWN_FILE_EXTENSIONS.any (fun ext => pyEndsWith name ext) then false
      else true
    else false

end Drive

/-- An entry carrying the image-preview signal together with a class name
containing "folder": the class-name rule fires before the preview rule. -/
def previewWithFolderClass : Drive.Entry :=
  { hasImagePreview := true, classes := ["folder-icon"] }

/-- C6 counterexample: this entry has the image-preview signal set and neither
the folder mime marker nor the folder flag, yet `_is_folder` classifies it as
a folder (the class-name signal wins), refuting the claim's final clause. -/
theorem classifier_preview_counterexample :
    previewWithFolderClass.hasImagePreview = true ∧
    previewWithFolderClass.mimeType ≠ "application/vnd.google-apps.folder" ∧
    previewWithFolderClass.isFolder = false ∧
    Drive.is_folder previewWithFolderClass = true := by decide

/-- C6 (amended): `_is_folder` is a pure, deterministic cascade; the folder
mime marker forces a folder verdict regardless of any other signal; and an
entry with the image-preview signal set and no folder-indicating signal at
all (mime, flag, structural target, class name, href pattern, shared-folder
label) is classified as a file. -/
theorem classifier_pure_cascade :
    (∀ e : Drive.Entry, Drive.is_folder e = Drive.is_folder e)
    ∧ (∀ e : Drive.Entry, e.mimeType = "application/vnd.google-apps.folder" →
        Drive.is_folder e = true)
    ∧ (∀ e : Drive.Entry, e.hasImagePreview = true →
        pyLower e.mimeType ≠ "application/vnd.google-apps.folder" →
        e.isFolder = false →
        e.dataTarget ≠ some "folder" →
        e.classes.any (fun c => strContains (pyLower c) "folder") = false →
        strContains e.href "/folders/" = false →
        strContains (pyLower e.ariaLabel) "shared folder" = false →
        Drive.is_folder e = false) := by
  refine ⟨fun e => rfl, ?_, ?_⟩
  · intro e h
    have hlow : pyLower e.mimeType = "application/vnd.google-apps.folder" := by
      rw [h]; decide
    simp [Drive.is_folder, hlow]
  · intro e hPrev hMime hFlag hTarget hClass hHref hShared
    simp only [Drive.is_folder]
    rw [if_neg hMime, if_neg (by simp [hFlag]), if_neg hTarget]
    rw [if_neg (by simp [hClass]), if_neg (by simp [hHref]), if_neg (by simp [hShared])]
    by_cases hAria : strContains (pyLower e.ariaLabel) "image" ∧
        strContains (pyLower e.ariaLabel) "more info"
    · rw [if_pos hAria]
    · rw [if_neg hAria, if_pos (by simp [hPrev])]

/-- Witness for C6 at a concrete entry carrying only the preview signal, and
at a concrete entry carrying only the folder mime marker. -/
theorem classifier_pure_cascade_witness :
    Drive.is_folder { hasImagePreview := true } = false ∧
    Drive.is_folder { mimeType := "application/vnd.google-apps.folder" } = true :=
  ⟨classifier_pure_cascade.2.2 { hasImagePreview := true } (by decide) (by decide)
      (by decide) (by decide) (by decide) (by decide) (by decide),
   classifier_pure_cascade.2.1 { mimeType := "application/vnd.google-apps.folder" } rfl⟩

/-! ### Idempotence of Python `str.strip` -/

lemma dropWhile_head_false (p : α → Bool) :
    ∀ (l : List α) (c : α), (l.dropWhile p).head? = some c → p c = false := by
  intro l
  induction l with
  | nil => intro c hc; simp at hc
  | cons a t ih =>
    intro c hc
    by_cases h : p a
    · rw [List.dropWhile_cons, if_pos h] at hc
      exact ih c hc
    · rw [List.dropWhile_cons, if_neg h] at hc
      simp at hc
      rw [← hc]
      simpa using h

lemma dropWhile_eq_self_of_head (p : α → Bool) (l : List α)
    (h : ∀ c, l.head? = some c → p c = false) : l.dropWhile p = l := by
  cases l with
  | nil => rfl
  | cons a t =>
    have := h a rfl
    rw [List.dropWhile_cons, if_neg (by simp [this])]

lemma dropWhile_dropWhile (p : α → Bool) (l : List α) :
    (l.dropWhile p).dropWhile p = l.dropWhile p :=
  dropWhile_eq_self_of_head p _ (dropWhile_head_false p l)

lemma head?_of_isPrefix {l₁ l₂ : List α} {c : α} (h : List.IsPrefix l₁ l₂)
    (hc : l₁.head? = some c) : l₂.head? = some c := by
  obtain ⟨t, rfl⟩ := h
  cases l₁ <;> simp_all

/-- The character-list core of `pyStrip`. -/
lemma pyStrip_data (s : String) :
    (pyStrip s).data =
      ((s.data.dropWhile isPySpace).reverse.dropWhile isPySpace).reverse := rfl

/-- Python `str.strip` is idempotent. -/
lemma pyStrip_idem (s : String) : pyStrip (pyStrip s) = pyStrip s := by
  cases s with
  | mk d =>
    show String.mk _ = String.mk _
    congr 1
    set A := d.dropWhile isPySpace with hA
    set B := A.reverse.dropWhile isPySpace with hB
    show ((B.reverse.dropWhile isPySpace).reverse.dropWhile isPySpace).reverse = B.reverse
    have hBrevA : List.IsPrefix B.reverse A := by
      have hsuf : B <:+ A.reverse := List.dropWhile_suffix isPySpace
      have := List.reverse_prefix.mpr hsuf
      rwa [List.reverse_reverse] at this
    have h1 : B.reverse.dropWhile isPySpace = B.reverse := by
      apply dropWhile_eq_self_of_head
      intro c hc
      exact dropWhile_head_false isPySpace d c (head?_of_isPrefix hBrevA hc)
    rw [h1, List.reverse_reverse, dropWhile_dropWhile]

/-! ### The deduplicator `_remove_duplicates` -/

namespace Drive

/-- `not name or len(name) < 2` of `_remove_duplicates` (the name here is
already stripped, as in the source). -/
def nameTooShort (name : String) : Bool := name.length < 2

/-- The "looks like JavaScript code or system data" test of
`_remove_duplicates`. -/
def nameLooksLikeScript (name : String) : Bool :=
  pyStartsWith name "window." ∨ pyStartsWith name "AF_initDataCallback" ∨
  pyStartsWith name "%.@." ∨ strContains name "null,null,null" ∨
  1000 < name.length ∨ 10 < pyCountChar name '"'

/-- `file_id and len(file_id) < 10` of `_remove_duplicates`. -/
def idTooShort (file_id : String) : Bool := pyTruthy file_id ∧ file_id.length < 10

/-- The loop of `_remove_duplicates`, threading the `seen_ids` and
`seen_names` sets.  In the source `name` stands for the stripped display name
and `file_id` for the raw id; `seen_ids` only ever receives truthy (non-empty)
ids, exactly as `if file_id: seen_ids.add(file_id)` does. -/
def remove_duplicates_go : List Entry → List String → List String → List Entry
  | [], _, _ => []
  | item :: rest, seen_ids, seen_names =>
    if nameTooShort (pyStrip item.name) then
      remove_duplicates_go rest seen_ids seen_names
    else if nameLooksLikeScript (pyStrip item.name) then
      remove_duplicates_go rest seen_ids seen_names
    else if idTooShort item.id then
      remove_duplicates_go rest seen_ids seen_names
    else if item.id ∈ seen_ids ∨ pyStrip item.name ∈ seen_names then
      remove_duplicates_go rest seen_ids seen_names
    else
      { item with name := pyStrip item.name } ::
        remove_duplicates_go rest
          (if pyTruthy item.id then item.id :: seen_ids else seen_ids)
          (pyStrip item.name :: seen_names)

/-- `GoogleDriveLister._remove_duplicates`. -/
def remove_duplicates (files : List Entry) : List Entry :=
  remove_duplicates_go files [] []

/-- The separation property `_remove_duplicates` establishes between any two
entries of its output: distinct names, and distinct ids whenever the first id
is non-empty. -/
def distinctKeys (e1 e2 : Entry) : Prop :=
  e1.name ≠ e2.name ∧ (pyTruthy e1.id → e1.id ≠ e2.id)

/-- Every output entry of the deduplication loop passes all validity filters,
carries an already-stripped name, and avoids the ambient seen sets. -/
lemma remove_duplicates_go_mem :
    ∀ (xs : List Entry) (a b : List String) (e : Entry), e ∈ remove_duplicates_go xs a b →
      nameTooShort e.name = false ∧ nameLooksLikeScript e.name = false ∧
      idTooShort e.id = false ∧ pyStrip e.name = e.name ∧
      e.name ∉ b ∧ (pyTruthy e.id → e.id ∉ a) := by
  intro xs
  induction xs with
  | nil => intro a b e he; simp [remove_duplicates_go] at he
  | cons item rest ih =>
    intro a b e he
    rw [remove_duplicates_go] at he
    by_cases h1 : nameTooShort (pyStrip item.name)
    · rw [if_pos h1] at he; exact ih a b e he
    rw [if_neg h1] at he
    by_cases h2 : nameLooksLikeScript (pyStrip item.name)
    · rw [if_pos h2] at he; exact ih a b e he
    rw [if_neg h2] at he
    by_cases h3 : idTooShort item.id
    · rw [if_pos h3] at he; exact ih a b e he
    rw [if_neg h3] at he
    by_cases h4 : item.id ∈ a ∨ pyStrip item.name ∈ b
    · rw [if_pos h4] at he; exact ih a b e he
    rw [if_neg h4] at he
    push_neg at h4
    rcases List.mem_cons.mp he with hkept | hrec
    · subst hkept
      refine ⟨by simpa using h1, by simpa using h2, by simpa using h3,
        pyStrip_idem item.name, h4.2, fun _ => h4.1⟩
    · obtain ⟨p1, p2, p3, p4, p5, p6⟩ := ih _ _ e hrec
      refine ⟨p1, p2, p3, p4, fun hb => p5 (List.mem_cons_of_mem _ hb), fun ht => ?_⟩
      intro ha
      apply p6 ht
      by_cases h5 : pyTruthy item.id
      · rw [if_pos h5]; exact List.mem_cons_of_mem _ ha
      · rw [if_neg h5]; exact ha

/-- The output of the deduplication loop is pairwise separated: no repeated
name, no repeated non-empty id. -/
lemma remove_duplicates_go_pairwise :
    ∀ (xs : List Entry) (a b : List String),
      (remove_duplicates_go xs a b).Pairwise distinctKeys := by
  intro xs
  induction xs with
  | nil => intro a b; simp [remove_duplicates_go]
  | cons item rest ih =>
    intro a b
    rw [remove_duplicates_go]
    by_cases h1 : nameTooShort (pyStrip item.name)
    · rw [if_pos h1]; exact ih a b
    rw [if_neg h1]
    by_cases h2 : nameLooksLikeScript (pyStrip item.name)
    · rw [if_pos h2]; exact ih a b
    rw [if_neg h2]
    by_cases h3 : idTooShort item.id
    · rw [if_pos h3]; exact ih a b
    rw [if_neg h3]
    by_cases h4 : item.id ∈ a ∨ pyStrip item.name ∈ b
    · rw [if_pos h4]; exact ih a b
    rw [if_neg h4]
    refine List.Pairwise.cons ?_ (ih _ _)
    intro e' he'
    obtain ⟨-, -, -, -, p5, p6⟩ := remove_duplicates_go_mem rest _ _ e' he'
    constructor
    · intro hn
      exact p5 (by rw [← hn]; exact List.mem_cons_self _ _)
    · intro ht hid
      by_cases h5 : pyTruthy e'.id
      · have := p6 h5
        rw [if_pos ht] at this
        exact this (by rw [← hid]; exact List.mem_cons_self _ _)
      · have he'id : e'.id = "" := by simpa [pyTruthy] using h5
        have : item.id ≠ "" := by simpa [pyTruthy] using ht
        exact this (hid.trans he'id)

/-- On a list that is already validated, stripped, seen-set-disjoint and
pairwise separated, the deduplication loop is the identity. -/
lemma remove_duplicates_go_no_op :
    ∀ (ys : List Entry) (a b : List String),
      (∀ e ∈ ys, nameTooShort e.name = false ∧ nameLooksLikeScript e.name = false ∧
        idTooShort e.id = false ∧ pyStrip e.name = e.name ∧
        e.name ∉ b ∧ (pyTruthy e.id → e.id ∉ a)) →
      "" ∉ a →
      ys.Pairwise distinctKeys →
      remove_duplicates_go ys a b = ys := by
  intro ys
  induction ys with
  | nil => intro a b _ _ _; rfl
  | cons e rest ih =>
    intro a b hall hempty hpair
    obtain ⟨p1, p2, p3, p4, p5, p6⟩ := hall e (List.mem_cons_self e rest)
    rw [List.pairwise_cons] at hpair
    rw [remove_duplicates_go, p4, if_neg (by simp [p1]), if_neg (by simp [p2]),
      if_neg (by simp [p3])]
    have hseen : ¬(e.id ∈ a ∨ e.name ∈ b) := by
      push_neg
      refine ⟨?_, p5⟩
      by_cases h5 : pyTruthy e.id
      · exact p6 h5
      · have : e.id = "" := by simpa [pyTruthy] using h5
        rw [this]; exact hempty
    rw [if_neg hseen]
    have heta : ({ e with name := e.name } : Entry) = e := by cases e; rfl
    rw [heta]
    congr 1
    apply ih
    · intro e' he'
      obtain ⟨q1, q2, q3, q4, q5, q6⟩ := hall e' (List.mem_cons_of_mem e he')
      have hd : distinctKeys e e' := hpair.1 e' he'
      refine ⟨q1, q2, q3, q4, ?_, ?_⟩
      · intro hb
        rcases List.mem_cons.mp hb with hb1 | hb2
        · exact hd.1 hb1.symm
        · exact q5 hb2
      · intro ht
        by_cases h5 : pyTruthy e.id
        · rw [if_pos h5]
          intro hmem
          rcases List.mem_cons.mp hmem with hm1 | hm2
          · exact hd.2 h5 hm1.symm
          · exact q6 ht hm2
        · rw [if_neg h5]; exact q6 ht
    · by_cases h5 : pyTruthy e.id
      · rw [if_pos h5]
        intro hmem
        rcases List.mem_cons.mp hmem with hm1 | hm2
        · exact (by simpa [pyTruthy] using h5 : e.id ≠ "") hm1.symm
        · exact hempty hm2
      · rw [if_neg h5]; exact hempty
    · exact hpair.2

/-- The deduplication loop keeps a sublist of the (name-stripped) input, in
input order. -/
lemma remove_duplicates_go_sublist :
    ∀ (xs : List Entry) (a b : List String),
      List.Sublist (remove_duplicates_go xs a b)
        (xs.map fun e => { e with name := pyStrip e.name }) := by
  intro xs
  induction xs with
  | nil => intro a b; simp [remove_duplicates_go]
  | cons item rest ih =>
    intro a b
    rw [remove_duplicates_go]
    by_cases h1 : nameTooShort (pyStrip item.name)
    · rw [if_pos h1]; exact (ih a b).trans (List.sublist_cons_self _ _)
    rw [if_neg h1]
    by_cases h2 : nameLooksLikeScript (pyStrip item.name)
    · rw [if_pos h2]; exact (ih a b).trans (List.sublist_cons_self _ _)
    rw [if_neg h2]
    by_cases h3 : idTooShort item.id
    · rw [if_pos h3]; exact (ih a b).trans (List.sublist_cons_self _ _)
    rw [if_neg h3]
    by_cases h4 : item.id ∈ a ∨ pyStrip item.name ∈ b
    · rw [if_pos h4]; exact (ih a b).trans (List.sublist_cons_self _ _)
    rw [if_neg h4]
    exact (ih _ _).cons₂ _

end Drive

/-- C9: `_remove_duplicates` is idempotent — applied to its own output it
returns that output unchanged — and its output is order-preserving over the
kept first occurrences: it is a sublist of the input with names stripped. -/
theorem dedup_idempotent_order_preserving :
    (∀ xs : List Drive.Entry,
      Drive.remove_duplicates (Drive.remove_duplicates xs) = Drive.remove_duplicates xs)
    ∧ (∀ xs : List Drive.Entry,
      List.Sublist (Drive.remove_duplicates xs)
        (xs.map fun e => { e with name := pyStrip e.name })) := by
  constructor
  · intro xs
    apply Drive.remove_duplicates_go_no_op
    · intro e he
      obtain ⟨p1, p2, p3, p4, -, -⟩ := Drive.remove_duplicates_go_mem xs [] [] e he
      exact ⟨p1, p2, p3, p4, List.not_mem_nil _, fun _ => List.not_mem_nil _⟩
    · exact List.not_mem_nil _
    · exact Drive.remove_duplicates_go_pairwise xs [] []
  · intro xs
    exact Drive.remove_duplicates_go_sublist xs [] []

/-! ### The traversal engine `get_folder_contents_via_scraping`

The Content Loader plus extractor chain plus classifier is abstracted as an
oracle `fetch : String → List Entry` giving, per folder id, the entry list
(classified, pre-deduplication) scraped from that folder's markup; a fetch
failure corresponds to `fetch` returning `[]`, which is also what the
source's `except` handler produces.  The recursion of the source is on
`(max_depth, current_depth)` with guard `current_depth >= max_depth`; it is
made structural on the difference `max_depth - current_depth`, which the
source decrements by recursing at `current_depth + 1`. -/

namespace Drive

/-- The body of `get_folder_contents_via_scraping` below its depth guard:
scrape one folder (fetch, deduplicate, tag with `path`), then, in recursive
mode, walk its surviving subfolder entries — skipping excluded names
(case-insensitively) and ids of length `≤ 10` — and append each subfolder's
own traversal.  The fuel argument stands for `max_depth - current_depth`;
fuel `0` is the `current_depth >= max_depth` terminal, returning `[]` before
any fetch. -/
def scrapeAux (fetch : String → List Entry) (recursive : Bool)
    (exclude_folders : List String) : Nat → String → String → List Entry
  | 0, _, _ => []
  | fuel+1, folder_id, current_path =>
    let files := (remove_duplicates (fetch folder_id)).map
      fun e => { e with path := current_path }
    let folders := files.filter fun item => item.isFolder
    let children :=
      if recursive then
        folders.foldl (fun acc folder =>
          if (exclude_folders.map pyLower).contains (pyLower folder.name) then acc
          else if pyTruthy folder.id ∧ 10 < folder.id.length then
            acc ++ scrapeAux fetch recursive exclude_folders fuel folder.id
              (if pyTruthy current_path then current_path ++ "/" ++ folder.name
               else folder.name)
          else acc) []
      else []
    files ++ children

/-- `GoogleDriveLister.get_folder_contents_via_scraping`. -/
def get_folder_contents_via_scraping (fetch : String → List Entry) (folder_id : String)
    (recursive : Bool) (max_depth current_depth : Nat) (current_path : String)
    (exclude_folders : List String) : List Entry :=
  scrapeAux fetch recursive exclude_folders (max_depth - current_depth) folder_id current_path

end Drive

/-- A folder entry listing itself as its own child: the adversarial
self-referential graph of the termination claim. -/
def selfLoopEntry : Drive.Entry :=
  { id := "LOOPFOLDER123", name := "loop", isFolder := true }

/-- The folder graph in which every folder's markup lists `selfLoopEntry`. -/
def selfLoopFetch : String → List Drive.Entry := fun _ => [selfLoopEntry]

/-- On the self-referential graph, each traversal level contributes exactly
one entry and recursion stops when the fuel (the remaining depth budget) runs
out. -/
lemma scrapeAux_selfLoop_length :
    ∀ (fuel : Nat) (fid path : String),
      (Drive.scrapeAux selfLoopFetch true [] fuel fid path).length = fuel := by
  intro fuel
  induction fuel with
  | zero => intro fid path; rfl
  | succ n ih =>
    intro fid path
    rw [Drive.scrapeAux]
    have hded : Drive.remove_duplicates (selfLoopFetch fid) = [selfLoopEntry] := rfl
    rw [hded]
    simp only [List.map_cons, List.map_nil, List.filter, selfLoopEntry]
    simp [ih, pyTruthy]
    rw [if_pos (by decide : (10:Nat) < "LOOPFOLDER123".length)]
    exact ih _ _

/-- C3: for every `maxDepth`, a traversal call at `depth ≥ maxDepth` returns
the empty list without consulting the Content Loader (its result does not
depend on the fetch oracle at all), and on a folder graph whose folder lists
its own id as a child the traversal expands exactly once per remaining depth
level, hence at most `maxDepth` times: it terminates. -/
theorem traversal_depth_bound :
    (∀ (fetch fetch' : String → List Drive.Entry) (folder_id : String) (recursive : Bool)
        (max_depth current_depth : Nat) (current_path : String)
        (exclude_folders : List String),
        max_depth ≤ current_depth →
        Drive.get_folder_contents_via_scraping fetch folder_id recursive max_depth
            current_depth current_path exclude_folders = []
        ∧ Drive.get_folder_contents_via_scraping fetch folder_id recursive max_depth
            current_depth current_path exclude_folders
          = Drive.get_folder_contents_via_scraping fetch' folder_id recursive max_depth
            current_depth current_path exclude_folders)
    ∧ (∀ d : Nat,
        (Drive.get_folder_contents_via_scraping selfLoopFetch "LOOPFOLDER123" true d 0 ""
          []).length = d) := by
  constructor
  · intro fetch fetch' fid recursive d cd path excl h
    have h0 : d - cd = 0 := Nat.sub_eq_zero_of_le h
    unfold Drive.get_folder_contents_via_scraping
    rw [h0]
    exact ⟨rfl, rfl⟩
  · intro d
    unfold Drive.get_folder_contents_via_scraping
    rw [Nat.sub_zero]
    exact scrapeAux_selfLoop_length d _ _

/-- Witness for C3: at depth 5 with `maxDepth = 3` the traversal of the
self-referential graph is empty. -/
theorem traversal_depth_bound_witness :
    Drive.get_folder_contents_via_scraping selfLoopFetch "LOOPFOLDER123" true 3 5 "" [] = [] :=
  (traversal_depth_bound.1 selfLoopFetch (fun _ => []) "LOOPFOLDER123" true 3 5 "" []
    (by decide)).1

/-! ### C1: deduplication scope within a traversal -/

/-- A subfolder entry of the counterexample graph. -/
def dupNameChildFolder : Drive.Entry :=
  { id := "SUBFOLDER1234", name := "sub", isFolder := true }

/-- A root-level file named `cat.png`. -/
def dupNameRootFile : Drive.Entry := { id := "ROOTCAT123456", name := "cat.png" }

/-- A file inside the subfolder also named `cat.png` (different id). -/
def dupNameSubFile : Drive.Entry := { id := "SUBCAT1234567", name := "cat.png" }

/-- A two-folder graph whose root and subfolder each contain a distinct file
with the same display name. -/
def dupNameFetch (fid : String) : List Drive.Entry :=
  if fid = "ROOTFOLDER123" then [dupNameChildFolder, dupNameRootFile]
  else if fid = "SUBFOLDER1234" then [dupNameSubFile] else []

/-- C1 counterexample: a recursive traversal of `dupNameFetch` returns a
flattened list containing two distinct entries that share the display name
`cat.png` — deduplication is applied per folder, not across the whole
traversal. -/
theorem traversal_flat_dedup_counterexample :
    ((Drive.get_folder_contents_via_scraping dupNameFetch "ROOTFOLDER123" true 5 0 "" []).map
      (fun e => e.name)) = ["sub", "cat.png", "cat.png"] ∧
    ¬ ((Drive.get_folder_contents_via_scraping dupNameFetch "ROOTFOLDER123" true 5 0 "" []).map
      (fun e => e.name)).Nodup := by decide

/-- C1 (amended): within one traversal step, the engine's own folder listing
— the segment of the result contributed by the folder itself, before child
results are appended — is deduplicated: no two of its entries share a name
and no two share a non-empty id, first occurrence kept.  (The full flattened
list may repeat names and ids across different folders.) -/
theorem traversal_per_folder_dedup :
    ∀ (fetch : String → List Drive.Entry) (folder_id : String) (recursive : Bool)
      (max_depth current_depth : Nat) (current_path : String)
      (exclude_folders : List String),
      current_depth < max_depth →
      List.IsPrefix
        ((Drive.remove_duplicates (fetch folder_id)).map
          fun e => { e with path := current_path })
        (Drive.get_folder_contents_via_scraping fetch folder_id recursive max_depth
          current_depth current_path exclude_folders)
      ∧ ((Drive.remove_duplicates (fetch folder_id)).map
          fun e => { e with path := current_path }).Pairwise Drive.distinctKeys := by
  intro fetch fid recursive d cd path excl h
  obtain ⟨k, hk⟩ : ∃ k, d - cd = k + 1 := ⟨d - cd - 1, by omega⟩
  constructor
  · unfold Drive.get_folder_contents_via_scraping
    rw [hk, Drive.scrapeAux]
    exact ⟨_, rfl⟩
  · rw [List.pairwise_map]
    exact (Drive.remove_duplicates_go_pairwise (fetch fid) [] []).imp fun h12 => h12

/-- Witness for C1 at the counterexample graph's root folder. -/
theorem traversal_per_folder_dedup_witness :
    List.IsPrefix
      ((Drive.remove_duplicates (dupNameFetch "ROOTFOLDER123")).map
        fun e => { e with path := "" })
      (Drive.get_folder_contents_via_scraping dupNameFetch "ROOTFOLDER123" true 5 0 "" [])
    ∧ ((Drive.remove_duplicates (dupNameFetch "ROOTFOLDER123")).map
        fun e => { e with path := "" }).Pairwise Drive.distinctKeys :=
  traversal_per_folder_dedup dupNameFetch "ROOTFOLDER123" true 5 0 "" [] (by decide)

/-! ### The order assembler `generate_mpcfill_xml`

`sys.exit(code)` is modelled as `Except.error code`.  The body of
`generate_mpcfill_xml` contains no `sys.exit` call, so its embedding always
returns `Except.ok`; the empty-input path prints "No files found to generate
XML" and returns, which is the `{ document := none, warnings := [] }`
outcome.  File writing and console narration are not modelled; the
`Warning: Could not find files for double-sided pair` messages are collected
structurally in the `warnings` field. -/

namespace Drive

/-- One `<card>` element of the produced order document. -/
structure CardSlot where
  id : String
  slots : Nat
  name : String
  query : Option String := none
  deriving Repr, DecidableEq

/-- The `<order>` document written by `generate_mpcfill_xml` (the `<backs>`
section is omitted when `backs = []`, which the empty list also encodes). -/
structure OrderDocument where
  quantity : Nat
  bracket : Nat
  stock : String
  foil : Bool
  fronts : List CardSlot
  backs : List CardSlot
  cardback : String
  deriving Repr, DecidableEq

/-- One printed `Warning: Could not find files for double-sided pair:
{missing}` message, recorded structurally. -/
structure PairWarning where
  front_name : String
  back_name : String
  missing : List String
  deriving Repr, DecidableEq

/-- What a `generate_mpcfill_xml` call produces: an optional document (none
on the "No files found" early return) and the pairing warnings printed. -/
structure GenOutcome where
  document : Option OrderDocument
  warnings : List PairWarning
  deriving Repr, DecidableEq

/-- Python dict-comprehension lookup
`{item.get('name',''): item for item in file_items}.get(k)`: the LAST item
with the key wins (later dict assignments overwrite earlier ones). -/
def dictLast (file_items : List Entry) (k : String) : Option Entry :=
  file_items.reverse.find? fun item => item.name = k

/-- `card_multiples.get(name, 1) if card_multiples else 1` (an absent mapping
and an empty dict both give 1). -/
def multiplesGet (card_multiples : List (String × Nat)) (name : String) : Nat :=
  match card_multiples.reverse.find? fun p => p.1 = name with
  | some p => p.2
  | none => 1

/-- The missing-name list of a failed pairing warning, in source order:
the front name if absent, then the back name if absent. -/
def mkPairWarning (file_items : List Entry) (front_name back_name : String) : PairWarning :=
  { front_name := front_name, back_name := back_name,
    missing :=
      (if (dictLast file_items front_name).isSome then [] else [front_name]) ++
      (if (dictLast file_items back_name).isSome then [] else [back_name]) }

/-- The mutable state of the double-sided loop of `generate_mpcfill_xml`:
the growing `front_cards` and `back_cards` lists, the `used_file_names` set
and the warnings printed so far. -/
structure PairState where
  front_cards : List Entry
  back_cards : List Entry
  used_file_names : List String
  warnings : List PairWarning

/-- The initial state of the double-sided loop. -/
def emptyPairState : PairState := ⟨[], [], [], []⟩

/-- The `for front_name, back_name in double_sided_pairs` loop: a found pair
appends `multiplicity` copies of each side and marks both names used; a pair
with either side missing records a warning and marks nothing used. -/
def processPairs (file_items : List Entry) (card_multiples : List (String × Nat)) :
    List (String × String) → PairState → PairState
  | [], st => st
  | (front_name, back_name) :: rest, st =>
    match dictLast file_items front_name, dictLast file_items back_name with
    | some front_item, some back_item =>
      processPairs file_items card_multiples rest
        { front_cards := st.front_cards ++
            List.replicate (multiplesGet card_multiples front_name) front_item,
          back_cards := st.back_cards ++
            List.replicate (multiplesGet card_multiples back_name) back_item,
          used_file_names := back_name :: front_name :: st.used_file_names,
          warnings := st.warnings }
    | _, _ =>
      processPairs file_items card_multiples rest
        { st with warnings := st.warnings ++ [mkPairWarning file_items front_name back_name] }

/-- The state after the double-sided stage: the loop's result when pairing
requests exist, the untouched initial state otherwise. -/
def pairState (file_items : List Entry) (card_multiples : List (String × Nat))
    (double_sided_pairs : List (String × String)) : PairState :=
  if double_sided_pairs ≠ [] then
    processPairs file_items card_multiples double_sided_pairs emptyPairState
  else emptyPairState

/-- The `for item in file_items: if item_name not in used_file_names` loop
appending the remaining single-sided fronts (with multiplicity) onto the
pair fronts accumulated so far. -/
def appendRemainingSingles (card_multiples : List (String × Nat)) (used : List String)
    (file_items : List Entry) (front_cards : List Entry) : List Entry :=
  file_items.foldl (fun acc item =>
    if item.name ∈ used then acc
    else acc ++ List.replicate (multiplesGet card_multiples item.name) item) front_cards

/-- The no-pairing branch: every file becomes a front card, with
multiplicity. -/
def allSingles (card_multiples : List (String × Nat)) (file_items : List Entry) :
    List Entry :=
  file_items.foldl (fun acc item =>
    acc ++ List.replicate (multiplesGet card_multiples item.name) item) []

/-- The folder filter plus the case-insensitive exclusion-by-name filter at
the top of `generate_mpcfill_xml`. -/
def eligibleItems (files : List Entry) (exclude_names : List String) : List Entry :=
  let file_items := files.filter fun item => !item.isFolder
  if exclude_names ≠ [] then
    file_items.filter fun item =>
      !((exclude_names.map pyLower).contains (pyLower item.name))
  else file_items

/-- The back-slot `query` derivation:
`name.replace('.png','').replace('.jpg','').replace('.jpeg','').lower()`. -/
def queryOfName (name : String) : String :=
  pyLower (pyReplace (pyReplace (pyReplace name ".png" "") ".jpg" "") ".jpeg" "")

/-- `GoogleDriveLister.generate_mpcfill_xml`.  `quantity`/`bracket` are the
optional explicit overrides (`None` defaults); `double_sided_pairs`,
`card_multiples` and `exclude_names` use `[]` for Python `None`/`{}`
(identical behaviour under truthiness). -/
def generate_mpcfill_xml (files : List Entry) (quantity bracket : Option Nat)
    (stock : String) (foil : Bool) (double_sided_pairs : List (String × String))
    (cardback : String) (card_multiples : List (String × Nat))
    (exclude_names : List String) : Except Nat GenOutcome :=
  let file_items := eligibleItems files exclude_names
  if file_items = [] then Except.ok { document := none, warnings := [] }
  else
    let st := pairState file_items card_multiples double_sided_pairs
    let front_cards :=
      if double_sided_pairs ≠ [] then
        appendRemainingSingles card_multiples st.used_file_names file_items st.front_cards
      else allSingles card_multiples file_items
    let back_cards := st.back_cards
    let card_count := front_cards.length
    Except.ok
      { document := some
          { quantity := quantity.getD card_count,
            bracket := bracket.getD (find_next_bracket card_count),
            stock := stock, foil := foil,
            fronts := front_cards.enum.map fun ic =>
              { id := ic.2.id, slots := ic.1, name := ic.2.name, query := none },
            backs :=
              if back_cards = [] then []
              else back_cards.enum.map fun ic =>
                { id := ic.2.id, slots := ic.1, name := ic.2.name,
                  query := some (queryOfName ic.2.name) },
            cardback := cardback },
        warnings := st.warnings }

end Drive

/-- Decidable equality for modelled script results (`sys.exit` as
`Except.error`). -/
instance {ε α : Type} [DecidableEq ε] [DecidableEq α] : DecidableEq (Except ε α) :=
  fun x y =>
    match x, y with
    | .ok a, .ok b => decidable_of_iff (a = b) (by simp)
    | .error a, .error b => decidable_of_iff (a = b) (by simp)
    | .ok _, .error _ => isFalse (by intro h; cases h)
    | .error _, .ok _ => isFalse (by intro h; cases h)

/-- `generate_mpcfill_xml` always returns normally: its body contains no
`sys.exit`, so the embedding never produces `Except.error`. -/
lemma generate_mpcfill_xml_ok (files : List Drive.Entry) (q br : Option Nat)
    (stock : String) (foil : Bool) (pairs : List (String × String)) (cardback : String)
    (m : List (String × Nat)) (excl : List String) :
    ∃ o, Drive.generate_mpcfill_xml files q br stock foil pairs cardback m excl
      = Except.ok o := by
  unfold Drive.generate_mpcfill_xml
  by_cases h : Drive.eligibleItems files excl = []
  · rw [if_pos h]; exact ⟨_, rfl⟩
  · rw [if_neg h]; exact ⟨_, rfl⟩

/-- A single folder entry, leaving no eligible file after folder filtering. -/
def loneFolderInput : List Drive.Entry :=
  [{ id := "SOMEFOLDER123", name := "stuff", isFolder := true }]

/-- C2 counterexample: with zero eligible entries the assembler takes its
reporting early-return and the call evaluates to `Except.ok` — a normal
return, not the non-zero `sys.exit` (`Except.error`) the claim asserts;
the caller's process then falls through `process_drive_link` and `main`
and exits 0. -/
theorem assembler_empty_exit_counterexample :
    Drive.generate_mpcfill_xml loneFolderInput none none "(S30) Standard Smooth" false []
      "12RJeMQw2E0jEz4SwKJTItoONCeHD7skj" [] []
      = Except.ok { document := none, warnings := [] } := by decide

/-- C2 (amended): whenever zero eligible file entries remain after folder
filtering and exclusion filtering, the assembler reports the condition and
produces no order document, but returns normally — the process does not exit
with a non-zero status. -/
theorem assembler_empty_reports_without_exit :
    ∀ (files : List Drive.Entry) (q br : Option Nat) (stock : String) (foil : Bool)
      (pairs : List (String × String)) (cardback : String)
      (m : List (String × Nat)) (excl : List String),
      Drive.eligibleItems files excl = [] →
      Drive.generate_mpcfill_xml files q br stock foil pairs cardback m excl
        = Except.ok { document := none, warnings := [] } := by
  intro files q br stock foil pairs cardback m excl h
  unfold Drive.generate_mpcfill_xml
  rw [if_pos h]

/-- Witness for C2: an empty listing with a (vacuous) exclusion list. -/
theorem assembler_empty_reports_without_exit_witness :
    Drive.generate_mpcfill_xml [] none none "(S30) Standard Smooth" false [] "CB" []
      ["junk.png"] = Except.ok { document := none, warnings := [] } :=
  assembler_empty_reports_without_exit [] none none "(S30) Standard Smooth" false [] "CB" []
    ["junk.png"] (by decide)

/-- C7: every back slot of an assembled document derives its `query` from its
own name by the fixed `.png`/`.jpg`/`.jpeg` replacement chain followed by
lower-casing. -/
theorem back_query_derivation :
    ∀ (files : List Drive.Entry) (q br : Option Nat) (stock : String) (foil : Bool)
      (pairs : List (String × String)) (cardback : String)
      (m : List (String × Nat)) (excl : List String)
      (o : Drive.GenOutcome) (d : Drive.OrderDocument) (s : Drive.CardSlot),
      Drive.generate_mpcfill_xml files q br stock foil pairs cardback m excl
        = Except.ok o →
      o.document = some d →
      s ∈ d.backs →
      s.query = some (Drive.queryOfName s.name) := by
  intro files q br stock foil pairs cardback m excl o d s hgen hdoc hs
  by_cases hempty : Drive.eligibleItems files excl = []
  · unfold Drive.generate_mpcfill_xml at hgen
    rw [if_pos hempty] at hgen
    have := Except.ok.inj hgen
    rw [← this] at hdoc
    simp at hdoc
  · unfold Drive.generate_mpcfill_xml at hgen
    rw [if_neg hempty] at hgen
    have ho := Except.ok.inj hgen
    rw [← ho] at hdoc
    simp only [Option.some.injEq] at hdoc
    rw [← hdoc] at hs
    simp only at hs
    by_cases hbc : (Drive.pairState (Drive.eligibleItems files excl) m pairs).back_cards = []
    · rw [if_pos hbc] at hs
      simp at hs
    · rw [if_neg hbc] at hs
      obtain ⟨ic, hic, rfl⟩ := List.mem_map.mp hs
      rfl

/-- The double-sided front/back Entries used by the C7 witness. -/
def witnessFront : Drive.Entry := { id := "FRONTCARD1234", name := "cat.png" }

/-- The back Entry of the C7 witness. -/
def witnessBack : Drive.Entry := { id := "BACKCARD12345", name := "cat-back.png" }

/-- The document assembled from the C7 witness input. -/
def witnessDoc : Drive.OrderDocument :=
  { quantity := 1, bracket := 18, stock := "(S30) Standard Smooth", foil := false,
    fronts := [{ id := "FRONTCARD1234", slots := 0, name := "cat.png", query := none }],
    backs := [{ id := "BACKCARD12345", slots := 0, name := "cat-back.png",
                query := some "cat-back" }],
    cardback := "CB" }

/-- The back slot assembled by the C7 witness input. -/
def witnessBackSlot : Drive.CardSlot :=
  { id := "BACKCARD12345", slots := 0, name := "cat-back.png", query := some "cat-back" }

/-- Witness for C7 at a concrete paired order. -/
theorem back_query_derivation_witness :
    witnessBackSlot.query = some (Drive.queryOfName witnessBackSlot.name) :=
  back_query_derivation [witnessFront, witnessBack] none none "(S30) Standard Smooth" false
    [("cat.png", "cat-back.png")] "CB" [] []
    { document := some witnessDoc, warnings := [] } witnessDoc witnessBackSlot
    (by decide) (by decide) (by decide)

/-! ### C8: fallback when a double-sided pair names a missing file -/

/-- When every pairing request has a missing side, the pairing loop only
accumulates warnings: no card is appended and no name is consumed. -/
lemma processPairs_all_missing :
    ∀ (file_items : List Drive.Entry) (m : List (String × Nat))
      (pairs : List (String × String)) (st : Drive.PairState),
      (∀ p ∈ pairs, Drive.dictLast file_items p.1 = none ∨
        Drive.dictLast file_items p.2 = none) →
      Drive.processPairs file_items m pairs st
        = { st with warnings := st.warnings ++
            pairs.map fun p => Drive.mkPairWarning file_items p.1 p.2 } := by
  intro items m pairs
  induction pairs with
  | nil =>
    intro st h
    simp only [Drive.processPairs, List.map_nil, List.append_nil]
  | cons p rest ih =>
    intro st h
    obtain ⟨f, b⟩ := p
    have hfb := h (f, b) (List.mem_cons_self _ _)
    have hrest : ∀ p ∈ rest, Drive.dictLast items p.1 = none ∨
        Drive.dictLast items p.2 = none :=
      fun p hp => h p (List.mem_cons_of_mem _ hp)
    simp only [Drive.processPairs]
    rcases hf : Drive.dictLast items f with _ | fi <;>
      rcases hb : Drive.dictLast items b with _ | bi
    · rw [ih _ hrest]; simp [List.append_assoc]
    · rw [ih _ hrest]; simp [List.append_assoc]
    · rw [ih _ hrest]; simp [List.append_assoc]
    · rcases hfb with hfb | hfb
      · rw [hf] at hfb; cases hfb
      · rw [hb] at hfb; cases hfb

/-- With an empty used set, the remaining-singles loop is the unconditional
all-singles loop. -/
lemma appendRemainingSingles_no_used :
    ∀ (m : List (String × Nat)) (file_items init : List Drive.Entry),
      Drive.appendRemainingSingles m [] file_items init
        = file_items.foldl (fun acc item =>
            acc ++ List.replicate (Drive.multiplesGet m item.name) item) init := by
  intro m items
  induction items with
  | nil => intro init; rfl
  | cons item rest ih =>
    intro init
    simp only [Drive.appendRemainingSingles, List.foldl_cons] at *
    rw [if_neg (List.not_mem_nil item.name)]
    exact ih _

/-- The Entries of the C8 concrete scenario. -/
def entryA : Drive.Entry := { id := "IDOFCARDA1234", name := "A.png" }

/-- Second entry of the C8 scenario. -/
def entryB : Drive.Entry := { id := "IDOFCARDB1234", name := "B.png" }

/-- Third entry of the C8 scenario. -/
def entryC : Drive.Entry := { id := "IDOFCARDC1234", name := "C.png" }

/-- The `used_file_names` set the pairing loop produces: only pairs whose
both sides are found contribute, each pushing its back name then its front
name; failed pairs contribute nothing. -/
def Drive.usedNames (file_items : List Drive.Entry) (pairs : List (String × String)) :
    List String :=
  pairs.foldl (fun acc p =>
    if (Drive.dictLast file_items p.1).isSome ∧ (Drive.dictLast file_items p.2).isSome then
      p.2 :: p.1 :: acc
    else acc) []

/-- The pairing loop threads `used_file_names` exactly as the `usedNames`
fold does: successful pairs push both names, failed pairs none. -/
lemma processPairs_used (file_items : List Drive.Entry) (m : List (String × Nat)) :
    ∀ (pairs : List (String × String)) (st : Drive.PairState),
      (Drive.processPairs file_items m pairs st).used_file_names
        = pairs.foldl (fun acc p =>
            if (Drive.dictLast file_items p.1).isSome ∧ (Drive.dictLast file_items p.2).isSome
            then p.2 :: p.1 :: acc else acc) st.used_file_names := by
  intro pairs
  induction pairs with
  | nil => intro st; rfl
  | cons p rest ih =>
    intro st
    obtain ⟨f, b⟩ := p
    rcases hf : Drive.dictLast file_items f with _ | fi <;>
      rcases hb : Drive.dictLast file_items b with _ | bi <;>
      simp [Drive.processPairs, hf, hb, ih]

/-- The pairing loop appends exactly one warning per failed pair, in order. -/
lemma processPairs_warnings (file_items : List Drive.Entry) (m : List (String × Nat)) :
    ∀ (pairs : List (String × String)) (st : Drive.PairState),
      (Drive.processPairs file_items m pairs st).warnings
        = st.warnings ++ (pairs.filter fun p =>
            !((Drive.dictLast file_items p.1).isSome &&
              (Drive.dictLast file_items p.2).isSome)).map
            fun p => Drive.mkPairWarning file_items p.1 p.2 := by
  intro pairs
  induction pairs with
  | nil => intro st; simp [Drive.processPairs]
  | cons p rest ih =>
    intro st
    obtain ⟨f, b⟩ := p
    rcases hf : Drive.dictLast file_items f with _ | fi <;>
      rcases hb : Drive.dictLast file_items b with _ | bi <;>
      simp [Drive.processPairs, hf, hb, ih, List.filter_cons]

/-- The double-sided stage's used set is `usedNames`, whether or not pairing
requests exist. -/
lemma pairState_used (file_items : List Drive.Entry) (m : List (String × Nat))
    (pairs : List (String × String)) :
    (Drive.pairState file_items m pairs).used_file_names
      = Drive.usedNames file_items pairs := by
  by_cases hp : pairs = []
  · subst hp
    simp [Drive.pairState, Drive.emptyPairState, Drive.usedNames]
  · unfold Drive.pairState
    rw [if_pos hp, processPairs_used]
    rfl

/-- A name enters the used set only through a pair whose both sides are
found. -/
lemma usedNames_only_successful (file_items : List Drive.Entry) :
    ∀ (pairs : List (String × String)) (acc : List String) (n : String),
      n ∈ pairs.foldl (fun acc p =>
          if (Drive.dictLast file_items p.1).isSome ∧ (Drive.dictLast file_items p.2).isSome
          then p.2 :: p.1 :: acc else acc) acc →
      n ∈ acc ∨ ∃ p ∈ pairs, (Drive.dictLast file_items p.1).isSome = true
        ∧ (Drive.dictLast file_items p.2).isSome = true ∧ (n = p.1 ∨ n = p.2) := by
  intro pairs
  induction pairs with
  | nil => intro acc n h; exact Or.inl h
  | cons q rest ih =>
    intro acc n h
    rw [List.foldl_cons] at h
    by_cases hq : (Drive.dictLast file_items q.1).isSome ∧
        (Drive.dictLast file_items q.2).isSome
    · rw [if_pos hq] at h
      rcases ih _ n h with hacc | ⟨p, hp, h1, h2, h3⟩
      · rcases List.mem_cons.mp hacc with rfl | hacc2
        · exact Or.inr ⟨q, List.mem_cons_self _ _, hq.1, hq.2, Or.inr rfl⟩
        · rcases List.mem_cons.mp hacc2 with rfl | hacc3
          · exact Or.inr ⟨q, List.mem_cons_self _ _, hq.1, hq.2, Or.inl rfl⟩
          · exact Or.inl hacc3
      · exact Or.inr ⟨p, List.mem_cons_of_mem _ hp, h1, h2, h3⟩
    · rw [if_neg hq] at h
      rcases ih _ n h with hacc | ⟨p, hp, h1, h2, h3⟩
      · exact Or.inl hacc
      · exact Or.inr ⟨p, List.mem_cons_of_mem _ hp, h1, h2, h3⟩

/-- The remaining-singles loop only grows its accumulator. -/
lemma mem_appendRemainingSingles_of_mem_init (m : List (String × Nat)) (used : List String) :
    ∀ (file_items init : List Drive.Entry) (x : Drive.Entry),
      x ∈ init → x ∈ Drive.appendRemainingSingles m used file_items init := by
  intro items
  induction items with
  | nil => intro init x hx; exact hx
  | cons j rest ih =>
    intro init x hx
    show x ∈ Drive.appendRemainingSingles m used rest
      (if j.name ∈ used then init
       else init ++ List.replicate (Drive.multiplesGet m j.name) j)
    by_cases hj : j.name ∈ used
    · rw [if_pos hj]; exact ih init x hx
    · rw [if_neg hj]; exact ih _ x (List.mem_append_left _ hx)

/-- An unconsumed file with non-zero multiplicity is appended by the
remaining-singles loop. -/
lemma mem_appendRemainingSingles (m : List (String × Nat)) (used : List String) :
    ∀ (file_items init : List Drive.Entry) (item : Drive.Entry),
      item ∈ file_items → item.name ∉ used → 0 < Drive.multiplesGet m item.name →
      item ∈ Drive.appendRemainingSingles m used file_items init := by
  intro items
  induction items with
  | nil => intro init item h; simp at h
  | cons j rest ih =>
    intro init item hmem hname hmult
    show item ∈ Drive.appendRemainingSingles m used rest
      (if j.name ∈ used then init
       else init ++ List.replicate (Drive.multiplesGet m j.name) j)
    rcases List.mem_cons.mp hmem with rfl | hrest
    · rw [if_neg hname]
      exact mem_appendRemainingSingles_of_mem_init m used rest _ item
        (List.mem_append_right _ (List.mem_replicate.mpr ⟨by omega, rfl⟩))
    · by_cases hj : j.name ∈ used
      · rw [if_pos hj]; exact ih _ item hrest hname hmult
      · rw [if_neg hj]; exact ih _ item hrest hname hmult

/-- Projecting id and name out of the emitted front slots recovers the
front-card list's ids and names in order. -/
lemma fronts_id_name_proj (front_cards : List Drive.Entry) :
    ((front_cards.enum.map fun ic =>
        ({ id := ic.2.id, slots := ic.1, name := ic.2.name, query := none }
          : Drive.CardSlot)).map fun s => (s.id, s.name))
      = front_cards.map fun e => (e.id, e.name) := by
  rw [List.map_map]
  have h : ((fun s : Drive.CardSlot => (s.id, s.name)) ∘ fun ic : Nat × Drive.Entry =>
      ({ id := ic.2.id, slots := ic.1, name := ic.2.name, query := none } : Drive.CardSlot))
      = (fun e : Drive.Entry => (e.id, e.name)) ∘ Prod.snd := rfl
  rw [h, ← List.map_map, List.enum_map_snd]

/-- C8 counterexample: with entries `{A, B, C}` and the mixed pairing list
`[(A, B), (A, X)]` — the first pair succeeds, the second names the absent
`X` — the name `A` is consumed by the successful pair, so it does NOT fall
through as an ordinary single-sided front: the document holds `A` only once,
as the double-sided front paired with back `B`, refuting the claim that both
names of the failed pair remain unconsumed and appear single-sided. -/
theorem pairing_mixed_counterexample :
    Drive.dictLast (Drive.eligibleItems [entryA, entryB, entryC] []) "X.png" = none
    ∧ "A.png" ∈ (Drive.pairState (Drive.eligibleItems [entryA, entryB, entryC] []) []
        [("A.png", "B.png"), ("A.png", "X.png")]).used_file_names
    ∧ Drive.generate_mpcfill_xml [entryA, entryB, entryC] none none "(S30) Standard Smooth"
        false [("A.png", "B.png"), ("A.png", "X.png")] "CB" [] []
      = Except.ok
          { document := some
              { quantity := 2, bracket := 18, stock := "(S30) Standard Smooth", foil := false,
                fronts := [⟨"IDOFCARDA1234", 0, "A.png", none⟩,
                           ⟨"IDOFCARDC1234", 1, "C.png", none⟩],
                backs := [⟨"IDOFCARDB1234", 0, "B.png", some "b"⟩],
                cardback := "CB" },
            warnings := [⟨"A.png", "X.png", ["X.png"]⟩] } := by decide

/-- C8 (amended): a pairing request with a missing front or back is warned
and consumes neither of its names — names are consumed only by successful
pairs — and every eligible entry whose name no successful pair consumed
(with non-zero multiplicity) appears in the document as a front; when every
pairing request fails the document equals the no-pairing document, and
entries `{A, B, C}` with the single pair `(A, X)` (`X` absent) yield `A`,
`B`, `C` as single-sided fronts with the failed pair warned.  (A name
consumed by a successful pair does not additionally fall through, even if it
also occurs in a failed pair.) -/
theorem pairing_missing_fallback :
    (∀ (files : List Drive.Entry) (q br : Option Nat) (stock : String) (foil : Bool)
        (pairs : List (String × String)) (cardback : String)
        (m : List (String × Nat)) (excl : List String) (p : String × String),
      p ∈ pairs →
      Drive.eligibleItems files excl ≠ [] →
      (Drive.dictLast (Drive.eligibleItems files excl) p.1 = none ∨
        Drive.dictLast (Drive.eligibleItems files excl) p.2 = none) →
      ∃ o, Drive.generate_mpcfill_xml files q br stock foil pairs cardback m excl
          = Except.ok o
        ∧ Drive.mkPairWarning (Drive.eligibleItems files excl) p.1 p.2 ∈ o.warnings)
    ∧ (∀ (file_items : List Drive.Entry) (pairs : List (String × String)) (n : String),
      n ∈ Drive.usedNames file_items pairs →
      ∃ p ∈ pairs, (Drive.dictLast file_items p.1).isSome = true
        ∧ (Drive.dictLast file_items p.2).isSome = true ∧ (n = p.1 ∨ n = p.2))
    ∧ (∀ (files : List Drive.Entry) (q br : Option Nat) (stock : String) (foil : Bool)
        (pairs : List (String × String)) (cardback : String)
        (m : List (String × Nat)) (excl : List String) (item : Drive.Entry),
      item ∈ Drive.eligibleItems files excl →
      item.name ∉ Drive.usedNames (Drive.eligibleItems files excl) pairs →
      0 < Drive.multiplesGet m item.name →
      ∃ o d, Drive.generate_mpcfill_xml files q br stock foil pairs cardback m excl
          = Except.ok o
        ∧ o.document = some d
        ∧ ∃ s ∈ d.fronts, s.id = item.id ∧ s.name = item.name)
    ∧ (∀ (files : List Drive.Entry) (q br : Option Nat) (stock : String) (foil : Bool)
        (pairs : List (String × String)) (cardback : String)
        (m : List (String × Nat)) (excl : List String),
      (∀ p ∈ pairs, Drive.dictLast (Drive.eligibleItems files excl) p.1 = none ∨
        Drive.dictLast (Drive.eligibleItems files excl) p.2 = none) →
      Except.map Drive.GenOutcome.document
          (Drive.generate_mpcfill_xml files q br stock foil pairs cardback m excl)
        = Except.map Drive.GenOutcome.document
          (Drive.generate_mpcfill_xml files q br stock foil [] cardback m excl)
      ∧ Except.map Drive.GenOutcome.warnings
          (Drive.generate_mpcfill_xml files q br stock foil pairs cardback m excl)
        = Except.ok (if Drive.eligibleItems files excl = [] then []
            else pairs.map fun p =>
              Drive.mkPairWarning (Drive.eligibleItems files excl) p.1 p.2))
    ∧ Drive.generate_mpcfill_xml [entryA, entryB, entryC] none none "(S30) Standard Smooth"
        false [("A.png", "X.png")] "CB" [] []
      = Except.ok
          { document := some
              { quantity := 3, bracket := 18, stock := "(S30) Standard Smooth", foil := false,
                fronts := [⟨"IDOFCARDA1234", 0, "A.png", none⟩,
                           ⟨"IDOFCARDB1234", 1, "B.png", none⟩,
                           ⟨"IDOFCARDC1234", 2, "C.png", none⟩],
                backs := [], cardback := "CB" },
            warnings := [⟨"A.png", "X.png", ["X.png"]⟩] } := by
  refine ⟨?_, ?_, ?_, ?_, ?_⟩
  · intro files q br stock foil pairs cardback m excl p hp hemp hfail
    have hpairsne : pairs ≠ [] := by
      rintro rfl
      exact List.not_mem_nil p hp
    unfold Drive.generate_mpcfill_xml
    rw [if_neg hemp]
    refine ⟨_, rfl, ?_⟩
    show Drive.mkPairWarning (Drive.eligibleItems files excl) p.1 p.2
      ∈ (Drive.pairState (Drive.eligibleItems files excl) m pairs).warnings
    unfold Drive.pairState
    rw [if_pos hpairsne, processPairs_warnings]
    apply List.mem_append_right
    apply List.mem_map_of_mem
    apply List.mem_filter.mpr
    refine ⟨hp, ?_⟩
    rcases hfail with h | h <;> simp [h]
  · intro file_items pairs n hn
    unfold Drive.usedNames at hn
    rcases usedNames_only_successful file_items pairs [] n hn with h | h
    · exact absurd h (List.not_mem_nil n)
    · exact h
  · intro files q br stock foil pairs cardback m excl item hitem hnotused hmult
    have hemp : Drive.eligibleItems files excl ≠ [] := by
      intro h
      rw [h] at hitem
      exact List.not_mem_nil item hitem
    unfold Drive.generate_mpcfill_xml
    rw [if_neg hemp]
    refine ⟨_, _, rfl, rfl, ?_⟩
    have hfc : item ∈ (if pairs ≠ [] then
        Drive.appendRemainingSingles m
          (Drive.pairState (Drive.eligibleItems files excl) m pairs).used_file_names
          (Drive.eligibleItems files excl)
          (Drive.pairState (Drive.eligibleItems files excl) m pairs).front_cards
      else Drive.allSingles m (Drive.eligibleItems files excl)) := by
      by_cases hpr : pairs = []
      · subst hpr
        rw [if_neg (by simp)]
        rw [show Drive.allSingles m (Drive.eligibleItems files excl)
            = Drive.appendRemainingSingles m [] (Drive.eligibleItems files excl) []
          from (appendRemainingSingles_no_used m (Drive.eligibleItems files excl) []).symm]
        exact mem_appendRemainingSingles m [] _ _ item hitem (List.not_mem_nil _) hmult
      · rw [if_pos hpr, pairState_used]
        exact mem_appendRemainingSingles m _ _ _ item hitem hnotused hmult
    have hmemp : (item.id, item.name) ∈ (if pairs ≠ [] then
        Drive.appendRemainingSingles m
          (Drive.pairState (Drive.eligibleItems files excl) m pairs).used_file_names
          (Drive.eligibleItems files excl)
          (Drive.pairState (Drive.eligibleItems files excl) m pairs).front_cards
      else Drive.allSingles m (Drive.eligibleItems files excl)).map
        (fun e => (e.id, e.name)) :=
      List.mem_map_of_mem _ hfc
    rw [← fronts_id_name_proj] at hmemp
    obtain ⟨s, hs, heq⟩ := List.mem_map.mp hmemp
    obtain ⟨h1, h2⟩ := Prod.ext_iff.mp heq
    exact ⟨s, hs, h1, h2⟩
  · intro files q br stock foil pairs cardback m excl hfail
    by_cases hemp : Drive.eligibleItems files excl = []
    · rw [if_pos hemp]
      unfold Drive.generate_mpcfill_xml
      rw [if_pos hemp, if_pos hemp]
      exact ⟨rfl, rfl⟩
    · rw [if_neg hemp]
      by_cases hp : pairs = []
      · subst hp
        refine ⟨rfl, ?_⟩
        simp only [Drive.generate_mpcfill_xml, if_neg hemp, Drive.pairState,
          Drive.emptyPairState, Except.map, List.map_nil]
        simp
      · have hst : Drive.pairState (Drive.eligibleItems files excl) m pairs
            = ⟨[], [], [], pairs.map fun p =>
                Drive.mkPairWarning (Drive.eligibleItems files excl) p.1 p.2⟩ := by
          unfold Drive.pairState
          rw [if_pos hp]
          rw [processPairs_all_missing _ _ _ _ hfail]
          simp [Drive.emptyPairState]
        have hnil : ¬ (([] : List (String × String)) ≠ []) := by simp
        have hstnil : Drive.pairState (Drive.eligibleItems files excl) m []
            = Drive.emptyPairState := by simp [Drive.pairState]
        simp only [Drive.generate_mpcfill_xml, if_neg hemp, if_pos hp, if_neg hnil, hst,
          hstnil, Drive.emptyPairState, Except.map]
        rw [appendRemainingSingles_no_used]
        refine ⟨?_, trivial⟩
        simp [Drive.allSingles]
  · decide

/-- Witness for C8 at the mixed list `[(A, B), (A, X)]`: the failed pair
`(A, X)` is warned, and the unconsumed entry `C` appears among the fronts. -/
theorem pairing_missing_fallback_witness :
    (∃ o, Drive.generate_mpcfill_xml [entryA, entryB, entryC] none none
        "(S30) Standard Smooth" false [("A.png", "B.png"), ("A.png", "X.png")] "CB" [] []
          = Except.ok o
      ∧ Drive.mkPairWarning (Drive.eligibleItems [entryA, entryB, entryC] [])
          ("A.png", "X.png").1 ("A.png", "X.png").2 ∈ o.warnings)
    ∧ (∃ o d, Drive.generate_mpcfill_xml [entryA, entryB, entryC] none none
        "(S30) Standard Smooth" false [("A.png", "B.png"), ("A.png", "X.png")] "CB" [] []
          = Except.ok o
      ∧ o.document = some d
      ∧ ∃ s ∈ d.fronts, s.id = entryC.id ∧ s.name = entryC.name) :=
  ⟨pairing_missing_fallback.1 [entryA, entryB, entryC] none none "(S30) Standard Smooth"
      false [("A.png", "B.png"), ("A.png", "X.png")] "CB" [] [] ("A.png", "X.png")
      (by decide) (by decide) (by decide),
   pairing_missing_fallback.2.2.1 [entryA, entryB, entryC] none none "(S30) Standard Smooth"
      false [("A.png", "B.png"), ("A.png", "X.png")] "CB" [] [] entryC
      (by decide) (by decide) (by decide)⟩

/-! ### The merger `combine_xml_files`

The filesystem and the XML deserializer `parse_xml_file` are external
collaborators; they are abstracted as an oracle `fs : String → FileStatus`
giving, per path, whether the file is absent (`os.path.exists` false),
present but unparsable (`parse_xml_file` raises), or parsed into the
component tuple `parse_xml_file` returns.  `sys.exit(1)` is `Except.error 1`
as before; warnings for skipped files are console output and not modelled —
the claims about them are expressed as "a skipped file contributes no
cards". -/

namespace Combine

/-- One parsed `<card>` dictionary (`parse_xml_file` defaults each missing
child element to `''`). -/
structure CardXml where
  id : String := ""
  slots : String := ""
  name : String := ""
  query : String := ""
  deriving Repr, DecidableEq, Inhabited

/-- The `details_dict` built by `parse_xml_file` when a `<details>` element
is present: `quantity`/`bracket` are `None` unless a non-empty decimal text
is present, `stock` is the element text (possibly `None`, modelled `none`;
an absent element gets the default at parse time), `foil` is the lower-cased
text comparison. -/
structure DetailsDict where
  quantity : Option Nat := none
  bracket : Option Nat := none
  stock : Option String := none
  foil : Bool := false
  deriving Repr, DecidableEq, Inhabited

/-- The tuple returned by `parse_xml_file`: the optional details dict (`none`
models the empty dict of a document without `<details>`), the front and back
card lists, and the cardback id (defaulted at parse time when absent). -/
structure ParsedFile where
  details : Option DetailsDict := none
  front_cards : List CardXml := []
  back_cards : List CardXml := []
  cardback_id : String := "12RJeMQw2E0jEz4SwKJTItoONCeHD7skj"
  deriving Repr, DecidableEq, Inhabited

/-- What the filesystem-plus-parser oracle reports for one path. -/
inductive FileStatus where
  | missing
  | unparsable
  | parsed (f : ParsedFile)
  deriving Repr, DecidableEq, Inhabited

/-- `os.path.exists` under the oracle. -/
def pathExists (fs : String → FileStatus) (p : String) : Bool :=
  match fs p with
  | .missing => false
  | _ => true

/-- The input resolution of the read loop: an existing path is used as is; a
missing path without a directory component is retried under `outputs/`;
anything else is skipped with a warning (`none`). -/
def resolve_path (fs : String → FileStatus) (file_path : String) : Option String :=
  if pathExists fs file_path then some file_path
  else if ¬ strContains file_path "/" then
    if pathExists fs ("outputs/" ++ file_path) then some ("outputs/" ++ file_path)
    else none
  else none

/-- The accumulators of the read loop of `combine_xml_files`. -/
structure CollectState where
  all_details : List (Option DetailsDict) := []
  all_front_cards : List CardXml := []
  all_back_cards : List CardXml := []
  cardback_ids : List String := []
  deriving Repr, DecidableEq, Inhabited

/-- The read loop: resolve each input path, skip unresolved or unparsable
files (with a console warning), and extend the accumulators with each
successfully parsed file's components. -/
def collectFiles (fs : String → FileStatus) : List String → CollectState → CollectState
  | [], st => st
  | p :: rest, st =>
    match resolve_path fs p with
    | none => collectFiles fs rest st
    | some rp =>
      match fs rp with
      | .parsed f =>
        collectFiles fs rest
          { all_details := st.all_details ++ [f.details],
            all_front_cards := st.all_front_cards ++ f.front_cards,
            all_back_cards := st.all_back_cards ++ f.back_cards,
            cardback_ids := st.cardback_ids ++ [f.cardback_id] }
      | _ => collectFiles fs rest st

/-- One renumbered `<card>` of the combined document (`query` emitted only
when the parsed query text is truthy). -/
structure OutCard where
  id : String
  slots : Nat
  name : String
  query : Option String := none
  deriving Repr, DecidableEq, Inhabited

/-- The combined `<order>` document written by `combine_xml_files`. -/
structure CombinedOrder where
  quantity : Nat
  bracket : Nat
  stock : String
  foil : Bool
  fronts : List OutCard
  backs : List OutCard
  cardback : String
  deriving Repr, DecidableEq, Inhabited

/-- The front-card emission loop: renumber `slots` 0-based in list order. -/
def renumberFronts (cards : List CardXml) : List OutCard :=
  cards.enum.map fun ic => { id := ic.2.id, slots := ic.1, name := ic.2.name, query := none }

/-- The back-card emission loop: renumber `slots` 0-based and emit `query`
only when the parsed query text is truthy. -/
def renumberBacks (cards : List CardXml) : List OutCard :=
  cards.enum.map fun ic =>
    { id := ic.2.id, slots := ic.1, name := ic.2.name,
      query := if pyTruthy ic.2.query then some ic.2.query else none }

/-- `combine_xml_files`.  The `stock`/`foil`/`cardback` arguments are the
command-line overrides (`none` = not given); `auto_bracket` mirrors
`not --no-auto-bracket`.  Output-file writing and pretty-printing are not
modelled; the function returns the document content (or `Except.error 1`
for the two `sys.exit(1)` paths). -/
def combine_xml_files (fs : String → FileStatus) (input_files : List String)
    (stock : Option String) (foil : Option Bool) (cardback : Option String)
    (auto_bracket : Bool) : Except Nat CombinedOrder :=
  if input_files = [] then Except.error 1
  else
    let st := collectFiles fs input_files {}
    if st.all_front_cards = [] ∧ st.all_back_cards = [] then Except.error 1
    else
      let total_front_cards := st.all_front_cards.length
      let total_back_cards := st.all_back_cards.length
      let base_details : Option DetailsDict := match st.all_details.head? with
        | some d => d
        | none => none
      let quantity :=
        if 0 < total_back_cards then max total_front_cards total_back_cards
        else total_front_cards
      let bracket :=
        if auto_bracket then find_next_bracket quantity
        else
          let brackets := st.all_details.filterMap fun d =>
            match d with
            | some dd =>
              match dd.bracket with
              | some b => if b ≠ 0 then some b else none
              | none => none
            | none => none
          match brackets with
          | [] => find_next_bracket quantity
          | b :: bs => bs.foldl max b
      let final_stock :=
        match stock with
        | some s => s
        | none =>
          match base_details with
          | some dd =>
            match dd.stock with
            | some s => if s ≠ "" then s else "(S30) Standard Smooth"
            | none => "(S30) Standard Smooth"
          | none => "(S30) Standard Smooth"
      let final_foil :=
        match foil with
        | some b => b
        | none =>
          match base_details with
          | some dd => dd.foil
          | none => false
      let final_cardback :=
        match cardback with
        | some c => c
        | none => st.cardback_ids.head?.getD "12RJeMQw2E0jEz4SwKJTItoONCeHD7skj"
      Except.ok
        { quantity := quantity, bracket := bracket, stock := final_stock,
          foil := final_foil,
          fronts := renumberFronts st.all_front_cards,
          backs :=
            if st.all_back_cards ≠ [] then renumberBacks st.all_back_cards
            else [],
          cardback := final_cardback }

/-- The successfully parsed files of an input list, in order: the documents
the merge is built from. -/
def parsedDocs (fs : String → FileStatus) (input_files : List String) : List ParsedFile :=
  input_files.filterMap fun p =>
    match resolve_path fs p with
    | none => none
    | some rp =>
      match fs rp with
      | .parsed f => some f
      | _ => none

end Combine

/-- The read loop accumulates exactly the concatenated card lists of the
successfully parsed inputs, in input order: skipped files contribute
nothing. -/
lemma collectFiles_cards (fs : String → Combine.FileStatus) :
    ∀ (inputs : List String) (st : Combine.CollectState),
      (Combine.collectFiles fs inputs st).all_front_cards
        = st.all_front_cards
          ++ ((Combine.parsedDocs fs inputs).map Combine.ParsedFile.front_cards).flatten
      ∧ (Combine.collectFiles fs inputs st).all_back_cards
        = st.all_back_cards
          ++ ((Combine.parsedDocs fs inputs).map Combine.ParsedFile.back_cards).flatten := by
  intro inputs
  induction inputs with
  | nil => intro st; simp [Combine.collectFiles, Combine.parsedDocs]
  | cons p rest ih =>
    intro st
    rcases hr : Combine.resolve_path fs p with _ | rp
    · have h1 : Combine.collectFiles fs (p :: rest) st = Combine.collectFiles fs rest st := by
        simp [Combine.collectFiles, hr]
      have h2 : Combine.parsedDocs fs (p :: rest) = Combine.parsedDocs fs rest := by
        simp [Combine.parsedDocs, List.filterMap_cons, hr]
      rw [h1, h2]
      exact ih st
    · rcases hf : fs rp with _ | _ | f
      · have h1 : Combine.collectFiles fs (p :: rest) st = Combine.collectFiles fs rest st := by
          simp [Combine.collectFiles, hr, hf]
        have h2 : Combine.parsedDocs fs (p :: rest) = Combine.parsedDocs fs rest := by
          simp [Combine.parsedDocs, List.filterMap_cons, hr, hf]
        rw [h1, h2]
        exact ih st
      · have h1 : Combine.collectFiles fs (p :: rest) st = Combine.collectFiles fs rest st := by
          simp [Combine.collectFiles, hr, hf]
        have h2 : Combine.parsedDocs fs (p :: rest) = Combine.parsedDocs fs rest := by
          simp [Combine.parsedDocs, List.filterMap_cons, hr, hf]
        rw [h1, h2]
        exact ih st
      · have h1 : Combine.collectFiles fs (p :: rest) st
            = Combine.collectFiles fs rest
                { all_details := st.all_details ++ [f.details],
                  all_front_cards := st.all_front_cards ++ f.front_cards,
                  all_back_cards := st.all_back_cards ++ f.back_cards,
                  cardback_ids := st.cardback_ids ++ [f.cardback_id] } := by
          simp [Combine.collectFiles, hr, hf]
        have h2 : Combine.parsedDocs fs (p :: rest) = f :: Combine.parsedDocs fs rest := by
          simp [Combine.parsedDocs, List.filterMap_cons, hr, hf]
        rw [h1, h2]
        obtain ⟨ihf, ihb⟩ := ih
          { all_details := st.all_details ++ [f.details],
            all_front_cards := st.all_front_cards ++ f.front_cards,
            all_back_cards := st.all_back_cards ++ f.back_cards,
            cardback_ids := st.cardback_ids ++ [f.cardback_id] }

        constructor
        · rw [ihf]; simp [List.append_assoc]
        · rw [ihb]; simp [List.append_assoc]

/-- C10: a merge input that does not exist (even after the `outputs/`
fallback) or fails to parse contributes no cards; the merged document's
fronts and backs are the renumbered concatenations over the successfully
parsed inputs only; and the operation exits non-zero exactly when no front
and no back card was collected from any input. -/
theorem merge_skips_bad_inputs :
    ∀ (fs : String → Combine.FileStatus) (inputs : List String) (stock : Option String)
      (foil : Option Bool) (cardback : Option String) (auto : Bool),
      (Combine.combine_xml_files fs inputs stock foil cardback auto = Except.error 1 ↔
        ((Combine.parsedDocs fs inputs).map Combine.ParsedFile.front_cards).flatten = [] ∧
        ((Combine.parsedDocs fs inputs).map Combine.ParsedFile.back_cards).flatten = []) ∧
      (∀ r, Combine.combine_xml_files fs inputs stock foil cardback auto = Except.ok r →
        r.fronts
          = Combine.renumberFronts
              ((Combine.parsedDocs fs inputs).map Combine.ParsedFile.front_cards).flatten
        ∧ r.backs
          = (if ((Combine.parsedDocs fs inputs).map
                Combine.ParsedFile.back_cards).flatten ≠ []
             then Combine.renumberBacks
               ((Combine.parsedDocs fs inputs).map Combine.ParsedFile.back_cards).flatten
             else [])) := by
  intro fs inputs stock foil cardback auto
  obtain ⟨hcf, hcb⟩ := collectFiles_cards fs inputs {}
  simp only [Combine.CollectState.all_front_cards, Combine.CollectState.all_back_cards,
    List.nil_append] at hcf hcb
  by_cases hin : inputs = []
  · subst hin
    constructor
    · simp [Combine.combine_xml_files, Combine.parsedDocs]
    · intro r hr
      simp [Combine.combine_xml_files] at hr
  · by_cases hempty : (Combine.collectFiles fs inputs {}).all_front_cards = [] ∧
        (Combine.collectFiles fs inputs {}).all_back_cards = []
    · have hcomb : Combine.combine_xml_files fs inputs stock foil cardback auto
          = Except.error 1 := by
        unfold Combine.combine_xml_files
        rw [if_neg hin, if_pos hempty]
      constructor
      · rw [hcomb]
        simp only [true_iff]
        exact ⟨by rw [← hcf]; exact hempty.1, by rw [← hcb]; exact hempty.2⟩
      · intro r hr
        rw [hcomb] at hr
        cases hr
    · have hcomb : ∃ r, Combine.combine_xml_files fs inputs stock foil cardback auto
          = Except.ok r := by
        unfold Combine.combine_xml_files
        rw [if_neg hin, if_neg hempty]
        exact ⟨_, rfl⟩
      obtain ⟨r0, hr0⟩ := hcomb
      constructor
      · rw [hr0]
        constructor
        · intro h; cases h
        · intro h
          exact absurd ⟨by rw [hcf]; exact h.1, by rw [hcb]; exact h.2⟩ hempty
      · intro r hr
        unfold Combine.combine_xml_files at hr
        rw [if_neg hin, if_neg hempty] at hr
        have := Except.ok.inj hr
        rw [← this]
        constructor
        · simp only [hcf]
        · simp only [hcb]

/-- A parsed merge input with two fronts and one back. -/
def goodDoc : Combine.ParsedFile :=
  { front_cards := [{ name := "g1" }, { name := "g2" }],
    back_cards := [{ name := "gb", query := "gb" }] }

/-- A filesystem oracle with one parsable file, one unparsable file, and
everything else missing. -/
def mixedFs : String → Combine.FileStatus := fun p =>
  if p = "good.xml" then .parsed goodDoc
  else if p = "bad.xml" then .unparsable
  else .missing

/-- The combined document of the C10 witness run. -/
def mixedResult : Combine.CombinedOrder :=
  (Combine.combine_xml_files mixedFs ["good.xml", "gone.xml", "bad.xml"] none none none
    true).toOption.getD default

/-- Witness for C10: one good input, one missing input, one unparsable
input; the merged document is built from the good one alone. -/
theorem merge_skips_bad_inputs_witness :
    mixedResult.fronts
      = Combine.renumberFronts
          ((Combine.parsedDocs mixedFs ["good.xml", "gone.xml", "bad.xml"]).map
            Combine.ParsedFile.front_cards).flatten
    ∧ mixedResult.backs
      = (if ((Combine.parsedDocs mixedFs ["good.xml", "gone.xml", "bad.xml"]).map
             Combine.ParsedFile.back_cards).flatten ≠ []
         then Combine.renumberBacks
           ((Combine.parsedDocs mixedFs ["good.xml", "gone.xml", "bad.xml"]).map
             Combine.ParsedFile.back_cards).flatten
         else []) :=
  (merge_skips_bad_inputs mixedFs ["good.xml", "gone.xml", "bad.xml"] none none none true).2
    mixedResult (by decide)

/-- A parsed document with 20 fronts and no backs. -/
def docA : Combine.ParsedFile := { front_cards := List.replicate 20 { name := "a" } }

/-- A parsed document with 10 fronts and 10 backs. -/
def docB : Combine.ParsedFile :=
  { front_cards := List.replicate 10 { name := "b" },
    back_cards := List.replicate 10 { name := "bb" } }

/-- The filesystem oracle of the C5 merge scenario. -/
def mergeFs : String → Combine.FileStatus := fun p =>
  if p = "a.xml" then .parsed docA else if p = "b.xml" then .parsed docB else .missing

/-- The combined document of the C5 scenario. -/
def mergeResult : Combine.CombinedOrder :=
  (Combine.combine_xml_files mergeFs ["a.xml", "b.xml"] none none none true).toOption.getD
    default

/-- C5: a successful merge's quantity is `max(totalFronts, totalBacks)` when
any back card was collected, and `totalFronts` otherwise; merging 20 fronts/
0 backs with 10 fronts/10 backs yields quantity 30 and auto bracket 36. -/
theorem merge_quantity_rule :
    (∀ (fs : String → Combine.FileStatus) (inputs : List String) (stock : Option String)
        (foil : Option Bool) (cardback : Option String) (auto : Bool)
        (r : Combine.CombinedOrder),
      Combine.combine_xml_files fs inputs stock foil cardback auto = Except.ok r →
      (0 < (Combine.collectFiles fs inputs {}).all_back_cards.length →
        r.quantity = max (Combine.collectFiles fs inputs {}).all_front_cards.length
          (Combine.collectFiles fs inputs {}).all_back_cards.length)
      ∧ ((Combine.collectFiles fs inputs {}).all_back_cards.length = 0 →
        r.quantity = (Combine.collectFiles fs inputs {}).all_front_cards.length))
    ∧ (Combine.combine_xml_files mergeFs ["a.xml", "b.xml"] none none none true).toOption.map
        (fun r => (r.quantity, r.bracket)) = some (30, 36) := by
  constructor
  · intro fs inputs stock foil cardback auto r h
    by_cases hin : inputs = []
    · subst hin
      simp [Combine.combine_xml_files] at h
    · by_cases hempty : (Combine.collectFiles fs inputs {}).all_front_cards = [] ∧
          (Combine.collectFiles fs inputs {}).all_back_cards = []
      · unfold Combine.combine_xml_files at h
        rw [if_neg hin, if_pos hempty] at h
        cases h
      · unfold Combine.combine_xml_files at h
        rw [if_neg hin, if_neg hempty] at h
        have := Except.ok.inj h
        rw [← this]
        constructor
        · intro hb
          simp only [if_pos hb]
        · intro hb
          have : ¬ (0 < (Combine.collectFiles fs inputs {}).all_back_cards.length) := by
            omega
          simp only [if_neg this]
  · decide

/-- Witness for C5: the 20/0 + 10/10 merge has collected backs and its
quantity is the max of the collected totals. -/
theorem merge_quantity_rule_witness :
    0 < (Combine.collectFiles mergeFs ["a.xml", "b.xml"] {}).all_back_cards.length ∧
    mergeResult.quantity
      = max (Combine.collectFiles mergeFs ["a.xml", "b.xml"] {}).all_front_cards.length
          (Combine.collectFiles mergeFs ["a.xml", "b.xml"] {}).all_back_cards.length :=
  ⟨by decide,
   (merge_quantity_rule.1 mergeFs ["a.xml", "b.xml"] none none none true mergeResult
     (by decide)).1 (by decide)⟩
